import Mathlib

/-
Verification development for the chipseqpeaks repository
(src/chipseqpeaks.py, src/chipseqpeaks/call_peaks.py).

The module is a thin orchestration layer around the external MACS2 peak
caller.  We give a shallow embedding of the class ChIPSeqPeaks and its
helper functions:

  * Python byte strings become lists of naturals (Bytes).
  * The possible Python values supplied as BAM inputs become the inductive
    PyInput, carrying enough structure to decide isinstance checks and
    Python truthiness, as used by the source.
  * The file system and the outputs of the external processes are oracles
    (total functions supplied as parameters): the source never inspects
    them beyond reading whole files.
  * Raised exceptions become the Except monad with the error type PyErr.

Faithfulness notes, stated once here:

  * In the source, lines 221-222 of chipseqpeaks.py read
        + self.nolambda * (--nolambda)
        + self.call_summits * (--call-summits)
    where the parenthesized operand is a parenthesized string literal,
    NOT a one-element tuple (the trailing comma is missing).  In Python,
    bool times str is string repetition, and tuple + str raises TypeError.
    We embed this faithfully with the type PyStrOrTuple below.
  * The call of call_peaks inside the constructor (lines 149-152) is
    missing a comma between its two keyword arguments, a SyntaxError in
    the source file; we embed the evident intended call and abstract the
    sample name (os.path.basename of the treatment argument) as a plain
    parameter, since no claim depends on it.
  * String.replace of the dot by the underscore (used by setattr and
    getattr to turn an output extension into an attribute name) is
    embedded as the character-wise map attrName.
  * subprocess.call returns the exit status of the external process; the
    source discards that value.  We keep the status as an explicit input
    of the embedded steps so that independence from it is expressible.
-/

namespace CSP

/-- Python bytes objects, as lists of byte values. -/
abbrev Bytes := List Nat

/-- The file system, an oracle mapping a path to the bytes of the file read
from it. -/
abbrev FileSys := String → Bytes

/-- A Python value supplied as a BAM input argument: a bytes object, a str
(path), the value None, or any other object together with its truthiness. -/
inductive PyInput where
  | pyNone
  | pyBytes (b : Bytes)
  | pyStr (s : String)
  | pyOther (t : Bool)
deriving DecidableEq

/-- Python truthiness of an input value: None is falsy, bytes and str are
truthy exactly when nonempty, other objects carry their own truthiness. -/
def PyInput.truthy : PyInput → Bool
  | .pyNone => false
  | .pyBytes b => !b.isEmpty
  | .pyStr s => !s.isEmpty
  | .pyOther t => t

/-- Whether a value passes the isinstance checks of parse_input. -/
def isStrOrBytes : PyInput → Bool
  | .pyBytes _ => true
  | .pyStr _ => true
  | _ => false

/-- The exceptions the embedded code can raise.  badInputError and
missingMACS2Error are the two exception classes the source defines;
typeError and attributeError stand for the built-in TypeError and
AttributeError that the source can raise dynamically. -/
inductive PyErr where
  | badInputError
  | missingMACS2Error
  | typeError
  | attributeError
deriving DecidableEq

/-- Embedding of parse_input (chipseqpeaks.py lines 328-349): a bytes
object is returned as is, a str is treated as a path and the file is read,
anything else raises BadInputError. -/
def parse_input (fs : FileSys) : PyInput → Except PyErr Bytes
  | .pyBytes b => .ok b
  | .pyStr s => .ok (fs s)
  | _ => .error .badInputError

/-- Python truthiness of the stored control field (None or a bytes
object). -/
def optBytesTruthy : Option Bytes → Bool
  | none => false
  | some b => !b.isEmpty

/-- Embedding of ext.replace with the one-character dot pattern and
underscore replacement: attribute name of an output extension. -/
def attrName (ext : String) : String :=
  String.mk (ext.data.map (fun c => if c = '.' then '_' else c))

/-- The state of a ChIPSeqPeaks object.  The dynamically set output
attributes (setattr in call_peaks, plus ppois_bdg) are modelled as the
field buffers, a map from attribute name to an optional bytes object;
absence models a missing attribute (AttributeError on access).
The source field cleanup_prefix is named cleanup_pfx here. -/
structure ChIPSeqPeaks where
  treatment_bam : Bytes
  macs2_path : String
  control_bam : Option Bytes
  qvalue : String
  nomodel : Bool
  shift : Int
  broad : Bool
  broad_cutoff : String
  nolambda : Bool
  call_summits : Bool
  cleans_up : Bool
  cleanup_pfx : Option String
  output_extensions : List String
  buffers : String → Option Bytes

/-- The keyword arguments of the constructor other than the two input
values.  The floats qvalue and broad_cutoff are only ever stored and
rendered into command-line strings, so they are carried as their rendered
strings; macs2_path equal to the empty string models an absent location
(None or an empty string, both falsy in the source check). -/
structure InitArgs where
  macs2_path : String
  atac_seq : Bool
  qvalue : String
  nomodel : Bool
  shift : Int
  broad : Bool
  broad_cutoff : String
  nolambda : Bool
  call_summits : Bool
deriving DecidableEq

/-- Embedding of the field-assembly part of the constructor
(chipseqpeaks.py lines 123-148): the MACS2 location check, parsing of the
treatment input, conditional parsing of the control input (guarded by
Python truthiness of the argument), the ATAC-seq adjustments of nomodel
and shift, and the computation of output_extensions (which multiplies
lists by the truthiness of the control argument and by the broad flag). -/
def initState (fs : FileSys) (a : InitArgs) (treatment control : PyInput) :
    Except PyErr ChIPSeqPeaks :=
  if a.macs2_path = "" then .error .missingMACS2Error
  else
    match parse_input fs treatment with
    | .error e => .error e
    | .ok tb =>
    match (if control.truthy then (parse_input fs control).map some else .ok none) with
    | .error e => .error e
    | .ok cb =>
    .ok {
      treatment_bam := tb
      macs2_path := a.macs2_path
      control_bam := cb
      qvalue := a.qvalue
      nomodel := if a.atac_seq && !a.nomodel then true else a.nomodel
      shift := if a.atac_seq && a.shift = 0 then -100 else a.shift
      broad := a.broad
      broad_cutoff := a.broad_cutoff
      nolambda := a.nolambda
      call_summits := a.call_summits
      cleans_up := false
      cleanup_pfx := none
      output_extensions :=
        ["peaks.xls", "peaks.narrowPeak", "summits.bed", "treat_pileup.bdg"]
          ++ (if control.truthy then ["control_lambda.bdg"] else [])
          ++ (if a.broad then ["peaks.broadPeak", "peaks.gappedPeak"] else [])
      buffers := fun _ => none
    }

/-- A Python value that is either a tuple of strings or a single string,
as needed to embed the argument assembly of call_peaks, where the operand
(--nolambda) is a parenthesized string literal, not a tuple. -/
inductive PyStrOrTuple where
  | tup (elems : List String)
  | strv (s : String)

/-- Python multiplication of a bool with a tuple or str: repetition,
giving the empty tuple or empty string when the bool is False. -/
def pyRepeat (b : Bool) : PyStrOrTuple → PyStrOrTuple
  | .tup es => .tup (if b then es else [])
  | .strv s => .strv (if b then s else "")

/-- Python addition on tuples and strings: tuple plus tuple concatenates,
str plus str concatenates, and the mixed cases raise TypeError. -/
def pyConcat : PyStrOrTuple → PyStrOrTuple → Except PyErr PyStrOrTuple
  | .tup a, .tup b => .ok (.tup (a ++ b))
  | .strv a, .strv b => .ok (.strv (a ++ b))
  | _, _ => .error .typeError

/-- The conditional control segment of the MACS2 argument tuple
(chipseqpeaks.py line 215): the truthiness of the stored control field
times the two-element tuple. -/
def controlTuple (st : ChIPSeqPeaks) (ctrlName : String) : PyStrOrTuple :=
  pyRepeat (optBytesTruthy st.control_bam) (.tup ["--control", ctrlName])

/-- Embedding of the argument expression passed to subprocess.call in
call_peaks (chipseqpeaks.py lines 205-222).  The base tuple and the
control, nomodel and broad segments are tuples; the nolambda and
call-summits operands are strings in the source (missing trailing commas),
so the fourth addition always raises TypeError, whatever the
configuration. -/
def macs2CallpeakArgs (st : ChIPSeqPeaks) (treatName ctrlName sampleName : String) :
    Except PyErr (List String) := do
  let base : PyStrOrTuple := .tup
    [st.macs2_path, "callpeak", "-B", "--extsize", "200", "--keep-dup", "all",
     "--treatment", treatName, "--name", sampleName,
     "--qvalue", st.qvalue, "--shift", toString st.shift]
  let a1 ← pyConcat base (controlTuple st ctrlName)
  let a2 ← pyConcat a1 (pyRepeat st.nomodel (.tup ["--nomodel"]))
  let a3 ← pyConcat a2
    (pyRepeat st.broad (.tup ["--broad", "--broad-cutoff", st.broad_cutoff]))
  let a4 ← pyConcat a3 (pyRepeat st.nolambda (.strv "--nolambda"))
  let a5 ← pyConcat a4 (pyRepeat st.call_summits (.strv "--call-summits"))
  match a5 with
  | .tup es => .ok es
  | .strv _ => .error .typeError

/-- Embedding of call_peaks (chipseqpeaks.py lines 181-231): stage the
inputs to scratch files (not observable, hence not modelled), build the
argument expression, run MACS2 (status is the exit status returned by
subprocess.call, which the source discards), then read each expected
output file into an attribute via setattr; macsOut is the oracle giving
the bytes that cat produces for each output extension (empty bytes when
the file is missing). -/
def call_peaks (st : ChIPSeqPeaks) (treatName ctrlName sampleName : String)
    (status : Int) (macsOut : String → Bytes) : Except PyErr ChIPSeqPeaks := do
  let _args ← macs2CallpeakArgs st treatName ctrlName sampleName
  let _exitStatus := status
  .ok { st with
    buffers := st.output_extensions.foldl
      (fun bufz ext => fun k => if k = attrName ext then some (macsOut ext) else bufz k)
      st.buffers }

/-- Embedding of the whole constructor (chipseqpeaks.py lines 81-152):
field assembly followed by call_peaks.  The sample name and the scratch
file names are abstracted as parameters. -/
def chipSeqPeaksInit (fs : FileSys) (a : InitArgs) (treatment control : PyInput)
    (treatName ctrlName sampleName : String) (status : Int)
    (macsOut : String → Bytes) : Except PyErr ChIPSeqPeaks :=
  match initState fs a treatment control with
  | .error e => .error e
  | .ok st => call_peaks st treatName ctrlName sampleName status macsOut

/-- Embedding of bdgcmp (chipseqpeaks.py lines 233-265): append ppois.bdg
to output_extensions, read the two attributes treat_pileup_bdg and
control_lambda_bdg to stage them to scratch files (a missing attribute
raises AttributeError: the precondition is unguarded), run MACS2 bdgcmp
(status is the exit status returned by subprocess.call, which the source
discards, so it is an unused input here) and store the bytes produced by
cat of the ppois output file (the oracle cmpOut) in the attribute
ppois_bdg.  In the source the append at line 236 happens before the
attribute reads, so on the AttributeError path the Python object keeps
the appended extension; the Except embedding drops the state together
with the exception, and no claim depends on that remnant. -/
def bdgcmp (st : ChIPSeqPeaks) (_status : Int) (cmpOut : Bytes) :
    Except PyErr ChIPSeqPeaks :=
  match st.buffers "treat_pileup_bdg", st.buffers "control_lambda_bdg" with
  | some _, some _ =>
    .ok { st with
      output_extensions := st.output_extensions ++ ["ppois.bdg"],
      buffers := fun k => if k = "ppois_bdg" then some cmpOut else st.buffers k }
  | _, _ => .error .attributeError

/-- Embedding of remove_blacklisted_peaks (chipseqpeaks.py lines 267-279)
together with bedtools_intersect (lines 352-381).  The external bedtools
process is the oracle filt, mapping the piped peaks and the blacklist path
to the filtered bytes (the bedtools argument tuple in the source is
itself missing a comma before the -v flag, a SyntaxError; the external
call is opaque here, so only the data flow matters).  The loop reads the
attribute peaks_narrowPeak, and when broad is set also peaks_broadPeak and
peaks_gappedPeak (a missing one raises AttributeError), then rebinds the
loop variable to the filtered result: the object is never mutated. -/
def remove_blacklisted_peaks (filt : Bytes → String → Bytes)
    (st : ChIPSeqPeaks) (blacklist_path : String) : Except PyErr ChIPSeqPeaks :=
  match st.buffers "peaks_narrowPeak" with
  | none => .error .attributeError
  | some p0 =>
    if st.broad then
      match st.buffers "peaks_broadPeak", st.buffers "peaks_gappedPeak" with
      | some p1, some p2 =>
        let _ := filt p0 blacklist_path
        let _ := filt p1 blacklist_path
        let _ := filt p2 blacklist_path
        .ok st
      | _, _ => .error .attributeError
    else
      let _ := filt p0 blacklist_path
      .ok st

/-- The disk holding the persisted output files, a map from path to file
contents. -/
abbrev Disk := String → Option Bytes

/-- Writing a file to disk (open with mode wb then write). -/
def diskWrite (d : Disk) (p : String) (b : Bytes) : Disk :=
  fun q => if q = p then some b else d q

/-- Embedding of os.path.isfile on the modelled disk. -/
def isfile (d : Disk) (p : String) : Bool :=
  (d p).isSome

/-- Embedding of os.remove on the modelled disk. -/
def osRemove (d : Disk) (p : String) : Disk :=
  fun q => if q = p then none else d q

/-- Embedding of the clean_up method (chipseqpeaks.py lines 297-299): when
the path is falsy (empty) the guard is False and nothing happens;
otherwise the file is removed when os.path.isfile holds and nothing
happens when it does not.  The operation is total, so invoking it again
for the same path is a no-op and never errors. -/
def clean_up (d : Disk) (path : String) : Disk :=
  if path = "" then d
  else if isfile d path then osRemove d path else d

/-- The output path format string of write and of the exit hook: the
prefix (str(None) when no prefix was recorded), an underscore, and the
extension. -/
def fmtPath : Option String → String → String
  | some p, ext => p ++ "_" ++ ext
  | none, ext => "None" ++ "_" ++ ext

/-- The loop of the write method: each selected extension is looked up as
an attribute (a missing one raises AttributeError) and its bytes are
written to the formatted path. -/
def writeFiles (bufz : String → Option Bytes) (pfx : String) :
    List String → Disk → Except PyErr Disk
  | [], d => .ok d
  | ext :: rest, d =>
    match bufz (attrName ext) with
    | none => .error .attributeError
    | some b => writeFiles bufz pfx rest (diskWrite d (pfx ++ "_" ++ ext) b)

/-- Embedding of write (chipseqpeaks.py lines 281-295): the selected
extensions are the varargs when nonempty and otherwise all of
output_extensions; each selected buffer is written to its formatted path,
and on completion the prefix is recorded in the field cleanup_pfx (source
name cleanup_prefix). -/
def writeOp (st : ChIPSeqPeaks) (pfx : String) (extensions : List String)
    (d : Disk) : Except PyErr (ChIPSeqPeaks × Disk) :=
  (writeFiles st.buffers pfx
      (if extensions.isEmpty then st.output_extensions else extensions) d).map
    (fun d1 => ({ st with cleanup_pfx := some pfx }, d1))

/-- Embedding of the enter hook (chipseqpeaks.py lines 154-161): entering
the managed context sets cleans_up to true. -/
def enterCtx (st : ChIPSeqPeaks) : ChIPSeqPeaks :=
  { st with cleans_up := true }

/-- Embedding of the exit hook (chipseqpeaks.py lines 163-169): when
cleans_up is set, clean_up is applied to the formatted path of every
output extension, using the recorded prefix; the object itself is not
changed. -/
def exitCtx (st : ChIPSeqPeaks) (d : Disk) : ChIPSeqPeaks × Disk :=
  if st.cleans_up then
    (st, st.output_extensions.foldl
      (fun acc ext => clean_up acc (fmtPath st.cleanup_pfx ext)) d)
  else (st, d)

/-- Whether an Except value is a success. -/
def exOk {α : Type} : Except PyErr α → Bool
  | .ok _ => true
  | .error _ => false

/-- A trivial file system oracle for concrete instances. -/
def fs0 : FileSys := fun _ => []

/-- The constructor arguments with MACS2 present and every option at its
default value. -/
def a1 : InitArgs :=
  { macs2_path := "macs2", atac_seq := false, qvalue := "0.05", nomodel := false,
    shift := 0, broad := false, broad_cutoff := "0.1", nolambda := false,
    call_summits := false }

/-- A concrete buffer map holding the four default outputs and the control
lambda track. -/
def bufs1 : String → Option Bytes := fun k =>
  if k = "peaks_xls" ∨ k = "peaks_narrowPeak" ∨ k = "summits_bed" ∨
      k = "treat_pileup_bdg" ∨ k = "control_lambda_bdg" then some [1] else none

/-- A concrete post-peak-calling state with the default output extensions
and the buffers of bufs1. -/
def st1 : ChIPSeqPeaks :=
  { treatment_bam := [0], macs2_path := "macs2", control_bam := none,
    qvalue := "0.05", nomodel := false, shift := 0, broad := false,
    broad_cutoff := "0.1", nolambda := false, call_summits := false,
    cleans_up := false, cleanup_pfx := none,
    output_extensions :=
      ["peaks.xls", "peaks.narrowPeak", "summits.bed", "treat_pileup.bdg"],
    buffers := bufs1 }

/-- The state remove_blacklisted_peaks yields on st1, extracted for the
witness of C2. -/
def c2res : ChIPSeqPeaks :=
  (remove_blacklisted_peaks (fun b _ => b) st1 "bl").toOption.getD st1

/-- The state bdgcmp yields on st1, extracted for the witness of C8. -/
def c8res : ChIPSeqPeaks :=
  (bdgcmp st1 0 [3]).toOption.getD st1

/-- The default constructor arguments with ATAC-seq mode enabled. -/
def aAtac : InitArgs := { a1 with atac_seq := true }

/-- The default constructor arguments with the MACS2 location absent. -/
def aNoMacs : InitArgs := { a1 with macs2_path := "" }

/-- The state the field-assembly stage yields for a one-byte treatment and
an empty-bytes control, extracted for the witness of C9. -/
def c9st : ChIPSeqPeaks :=
  (initState fs0 a1 (.pyBytes [5]) (.pyBytes [])).toOption.getD st1

/-- Helper: the argument assembly of call_peaks raises TypeError for every
state, because the fourth addend is a string (see macs2CallpeakArgs). -/
theorem callpeakArgsErr (st : ChIPSeqPeaks) (treatName ctrlName sampleName : String) :
    macs2CallpeakArgs st treatName ctrlName sampleName = .error .typeError := rfl

/-- Helper: call_peaks propagates the TypeError of the argument assembly,
for every state and every oracle. -/
theorem call_peaks_err (st : ChIPSeqPeaks) (treatName ctrlName sampleName : String)
    (status : Int) (macsOut : String → Bytes) :
    call_peaks st treatName ctrlName sampleName status macsOut = .error .typeError := rfl

/-- Helper: a successful remove_blacklisted_peaks returns the state
unchanged: the loop only rebinds its loop variable. -/
theorem remove_blacklisted_ok_eq (filt : Bytes → String → Bytes)
    (st : ChIPSeqPeaks) (path : String) (r : ChIPSeqPeaks)
    (h : remove_blacklisted_peaks filt st path = .ok r) : r = st := by
  unfold remove_blacklisted_peaks at h
  repeat' split at h
  all_goals first
    | exact (Except.ok.inj h).symm
    | cases h

/-- Helper: a successful bdgcmp returns the state with ppois.bdg appended
to the output extensions and the buffer map updated at ppois_bdg only. -/
theorem bdgcmp_ok_eq (st : ChIPSeqPeaks) (status : Int) (cmpOut : Bytes)
    (r : ChIPSeqPeaks) (h : bdgcmp st status cmpOut = .ok r) :
    r = { st with
      output_extensions := st.output_extensions ++ ["ppois.bdg"],
      buffers := fun k => if k = "ppois_bdg" then some cmpOut else st.buffers k } := by
  unfold bdgcmp at h
  repeat' split at h
  all_goals first
    | exact (Except.ok.inj h).symm
    | cases h

/-- Helper: a successful writeOp returns the state with only the cleanup
prefix recorded. -/
theorem writeOp_ok_state (st : ChIPSeqPeaks) (pfx : String) (exts : List String)
    (d : Disk) (r : ChIPSeqPeaks) (d1 : Disk)
    (h : writeOp st pfx exts d = .ok (r, d1)) :
    r = { st with cleanup_pfx := some pfx } := by
  unfold writeOp at h
  rcases hw : writeFiles st.buffers pfx
      (if exts.isEmpty then st.output_extensions else exts) d with e | d2 <;>
    rw [hw] at h
  · cases h
  · exact (congrArg Prod.fst (Except.ok.inj h)).symm

/-- A concrete starting disk holding one preexisting file at a path that
collides with the summit-list output of the prefix p, for the C5
counterexample. -/
def c5d0 : Disk := fun q => if q = "p_summits.bed" then some [9] else none

/-- The disk after writing only the summary-table output under the prefix
p, extracted for the C5 counterexample. -/
def c5d1 : Disk :=
  match writeOp st1 "p" ["peaks.xls"] c5d0 with
  | .ok (_, dd) => dd
  | .error _ => c5d0

/-- The state and disk after the managed-context exit following that
write, extracted for the C5 counterexample. -/
def c5step : ChIPSeqPeaks × Disk :=
  match writeOp st1 "p" ["peaks.xls"] c5d0 with
  | .ok (s, dd) => exitCtx (enterCtx s) dd
  | .error _ => (st1, c5d0)

/-- Helper: an output path, a prefix followed by an underscore and an
extension, is never the empty string. -/
theorem path_ne_empty (pfx ext : String) : pfx ++ "_" ++ ext ≠ "" := by
  intro h
  have h2 : (pfx ++ "_" ++ ext).data = ([] : List Char) := by rw [h]
  rw [String.data_append, String.data_append] at h2
  rcases List.append_eq_nil.mp h2 with ⟨h3, _⟩
  rcases List.append_eq_nil.mp h3 with ⟨_, h5⟩
  exact absurd h5 (by decide)

/-- Helper: for a fixed prefix, the output path determines the
extension. -/
theorem pathAppend_inj (pfx a b : String)
    (h : pfx ++ "_" ++ a = pfx ++ "_" ++ b) : a = b := by
  have h2 := congrArg String.data h
  rw [String.data_append, String.data_append, String.data_append,
    String.data_append] at h2
  exact String.ext (List.append_cancel_left h2)

/-- Helper: clean_up of a nonempty path removes that path. -/
theorem clean_up_self (d : Disk) (p : String) (hp : p ≠ "") :
    clean_up d p p = none := by
  unfold clean_up
  rw [if_neg hp]
  by_cases hf : isfile d p = true
  · rw [if_pos hf]
    unfold osRemove
    rw [if_pos rfl]
  · rw [if_neg hf]
    rcases ho : d p with _ | b
    · rfl
    · exact absurd (by unfold isfile; rw [ho]; rfl) hf

/-- Helper: clean_up leaves every other path unchanged. -/
theorem clean_up_other (d : Disk) (p q : String) (h : q ≠ p) :
    clean_up d p q = d q := by
  unfold clean_up
  by_cases hp : p = ""
  · rw [if_pos hp]
  · rw [if_neg hp]
    by_cases hf : isfile d p = true
    · rw [if_pos hf]
      unfold osRemove
      rw [if_neg h]
    · rw [if_neg hf]

/-- Helper: clean_up never creates a file. -/
theorem clean_up_none (d : Disk) (p q : String) (h : d q = none) :
    clean_up d p q = none := by
  by_cases hq : q = p
  · subst hq
    by_cases hp : q = ""
    · unfold clean_up
      rw [if_pos hp]
      exact h
    · exact clean_up_self d q hp
  · rw [clean_up_other d p q hq]
    exact h

/-- Helper: removing the same path twice is the same as removing it once:
the second run finds no file (or an empty path) and is a no-op. -/
theorem clean_up_idem (d : Disk) (p : String) :
    clean_up (clean_up d p) p = clean_up d p := by
  funext q
  by_cases hq : q = p
  · rw [hq]
    by_cases hp : p = ""
    · subst hp
      simp [clean_up]
    · rw [clean_up_self (clean_up d p) p hp, clean_up_self d p hp]
  · rw [clean_up_other (clean_up d p) p q hq, clean_up_other d p q hq]

/-- Helper: the cleanup fold never creates a file. -/
theorem cleanFold_none (pf : String → String) (l : List String) (q : String) :
    ∀ d : Disk, d q = none →
      (l.foldl (fun acc e => clean_up acc (pf e)) d) q = none := by
  induction l with
  | nil => exact fun d h => h
  | cons e0 rest ih =>
    exact fun d h => ih (clean_up d (pf e0)) (clean_up_none d (pf e0) q h)

/-- Helper: after the cleanup fold, the path of every processed extension
is gone. -/
theorem cleanFold_target (pf : String → String) (l : List String)
    (ext : String) (hne : pf ext ≠ "") (hmem : ext ∈ l) :
    ∀ d : Disk, (l.foldl (fun acc e => clean_up acc (pf e)) d) (pf ext) = none := by
  induction hmem with
  | head rest =>
    exact fun d =>
      cleanFold_none pf rest (pf ext) (clean_up d (pf ext))
        (clean_up_self d (pf ext) hne)
  | tail b hm ih => exact fun d => ih (clean_up d (pf b))

/-- Helper: the cleanup fold leaves every path outside the processed
extensions unchanged. -/
theorem cleanFold_other (pf : String → String) (l : List String) (q : String) :
    ∀ d : Disk, (∀ e ∈ l, q ≠ pf e) →
      (l.foldl (fun acc e => clean_up acc (pf e)) d) q = d q := by
  induction l with
  | nil => exact fun d _ => rfl
  | cons e0 rest ih =>
    intro d h
    exact (ih (clean_up d (pf e0))
        (fun e he => h e (List.mem_cons_of_mem e0 he))).trans
      (clean_up_other d (pf e0) q (h e0 (List.mem_cons_self e0 rest)))

/-- Helper: when every selected buffer is present, the write loop
completes; the resulting disk holds each buffer at its output path and
agrees with the starting disk elsewhere. -/
theorem writeFiles_ok (bufz : String → Option Bytes) (pfx : String)
    (l : List String) :
    ∀ d : Disk, (∀ ext ∈ l, (bufz (attrName ext)).isSome = true) →
      ∃ d1, writeFiles bufz pfx l d = .ok d1 ∧
        (∀ ext ∈ l, d1 (pfx ++ "_" ++ ext) = bufz (attrName ext)) ∧
        (∀ q, (∀ ext ∈ l, q ≠ pfx ++ "_" ++ ext) → d1 q = d q) := by
  induction l with
  | nil =>
    intro d _
    refine ⟨d, rfl, ?_, ?_⟩
    · intro ext hc
      cases hc
    · intro q _
      rfl
  | cons e0 rest ih =>
    intro d hb
    obtain ⟨b0, hb0⟩ : ∃ b0, bufz (attrName e0) = some b0 :=
      Option.isSome_iff_exists.mp (hb e0 (List.mem_cons_self e0 rest))
    obtain ⟨d1, hok, hvals, hother⟩ :=
      ih (diskWrite d (pfx ++ "_" ++ e0) b0)
        (fun ext he => hb ext (List.mem_cons_of_mem e0 he))
    refine ⟨d1, ?_, ?_, ?_⟩
    · simp only [writeFiles, hb0]
      exact hok
    · intro ext hmem
      rcases List.mem_cons.mp hmem with h1 | h2
      · subst h1
        by_cases hq : ∀ e ∈ rest, pfx ++ "_" ++ ext ≠ pfx ++ "_" ++ e
        · rw [hother (pfx ++ "_" ++ ext) hq]
          unfold diskWrite
          rw [if_pos rfl, hb0]
        · push_neg at hq
          obtain ⟨e1, he1, heq⟩ := hq
          obtain rfl : ext = e1 := pathAppend_inj pfx ext e1 heq
          exact hvals ext he1
      · exact hvals ext h2
    · intro q hq
      rw [hother q (fun e he => hq e (List.mem_cons_of_mem e0 he))]
      unfold diskWrite
      rw [if_neg (hq e0 (List.mem_cons_self e0 rest))]

/-- Helper: a successful Except value differs from every error value. -/
theorem exOk_ne_error {α : Type} {e : Except PyErr α} (h : exOk e = true)
    (er : PyErr) : e ≠ .error er := by
  intro he
  rw [he] at h
  exact Bool.noConfusion h

/-- Helper: exhaustive classification of the field-assembly stage: the
missing-tool error exactly when the MACS2 location is absent; otherwise
the bad-input error exactly when the treatment is neither str nor bytes,
or the treatment parses and the control is truthy and neither str nor
bytes; in every remaining case the stage completes. -/
theorem initState_classify (fs : FileSys) (a : InitArgs) (t c : PyInput) :
    (a.macs2_path = "" ∧ initState fs a t c = .error .missingMACS2Error) ∨
    (a.macs2_path ≠ "" ∧ isStrOrBytes t = false ∧
      initState fs a t c = .error .badInputError) ∨
    (a.macs2_path ≠ "" ∧ isStrOrBytes t = true ∧ c.truthy = true ∧
      isStrOrBytes c = false ∧ initState fs a t c = .error .badInputError) ∨
    (a.macs2_path ≠ "" ∧ isStrOrBytes t = true ∧
      (c.truthy = false ∨ isStrOrBytes c = true) ∧
      exOk (initState fs a t c) = true) := by
  by_cases hm : a.macs2_path = ""
  · exact .inl ⟨hm, by unfold initState; rw [if_pos hm]⟩
  · have hparse : ∀ u : PyInput, isStrOrBytes u = true →
        ∃ b, parse_input fs u = .ok b := by
      intro u hu
      rcases u with _ | b | s | ub
      · cases hu
      · exact ⟨b, rfl⟩
      · exact ⟨fs s, rfl⟩
      · cases hu
    rcases hT : isStrOrBytes t with _ | _
    · have hpe : parse_input fs t = .error .badInputError := by
        rcases t with _ | b | s | tb
        · rfl
        · cases hT
        · cases hT
        · rfl
      refine .inr (.inl ⟨hm, rfl, ?_⟩)
      unfold initState
      rw [if_neg hm, hpe]
    · obtain ⟨tb, hpt⟩ := hparse t hT
      rcases hCt : c.truthy with _ | _
      · refine .inr (.inr (.inr ⟨hm, rfl, .inl rfl, ?_⟩))
        unfold initState
        rw [if_neg hm, hpt, if_neg (by simp [hCt])]
        rfl
      · rcases hC : isStrOrBytes c with _ | _
        · have hpe : parse_input fs c = .error .badInputError := by
            rcases c with _ | b | s | cb
            · rfl
            · cases hC
            · cases hC
            · rfl
          refine .inr (.inr (.inl ⟨hm, rfl, rfl, rfl, ?_⟩))
          unfold initState
          rw [if_neg hm, hpt, if_pos hCt, hpe]
          rfl
        · obtain ⟨cb, hpc⟩ := hparse c hC
          refine .inr (.inr (.inr ⟨hm, rfl, .inr rfl, ?_⟩))
          unfold initState
          rw [if_neg hm, hpt, if_pos hCt, hpc]
          rfl

/-- C3: the claim says the argument list passed to MACS2 is a deterministic
function of the configuration containing each flag if and only if its
option holds, and that the external process is invoked exactly once per
construction.  On the source as written this fails for every
configuration: the operands (--nolambda) and (--call-summits) are
parenthesized strings, not tuples, so assembling the argument expression
raises TypeError before subprocess.call runs, and no argument list is ever
passed; MACS2 is invoked zero times. -/
theorem C3_args_assembly_raises_type_error (st : ChIPSeqPeaks)
    (treatName ctrlName sampleName : String) :
    macs2CallpeakArgs st treatName ctrlName sampleName = .error .typeError := rfl

/-- C1: the claim says construction either raises the documented
configuration/input error or succeeds and populates exactly the expected
output buffers.  On the source as written, a valid construction (treatment
a one-byte bytes object, no control, default configuration, MACS2 present)
instead raises TypeError from the argument assembly of call_peaks (see
C3), so no output buffer is ever populated; moreover the call of
call_peaks in the constructor is itself missing a comma between keyword
arguments, a SyntaxError.  This theorem evaluates the embedded constructor
at that failing input. -/
theorem C1_construction_raises_type_error :
    chipSeqPeaksInit fs0 a1 (.pyBytes [0]) .pyNone "t" "c" "s" 0 (fun _ => []) =
      .error .typeError := rfl

/-- C2: for every orchestrator state, any blacklist path and any behavior
of the external interval-subtraction process, a completing call of
remove_blacklisted_peaks returns the state unchanged: the loop only
rebinds its loop variable to the filtered result, so every stored output
buffer (peaks.narrowPeak, and peaks.broadPeak and peaks.gappedPeak when
broad mode is set) is left as it was; a non-completing call raises and
also changes nothing. -/
theorem C2_blacklist_filter_does_not_mutate (filt : Bytes → String → Bytes)
    (st : ChIPSeqPeaks) (path : String) (r : ChIPSeqPeaks)
    (h : remove_blacklisted_peaks filt st path = .ok r) : r = st :=
  remove_blacklisted_ok_eq filt st path r h

/-- Witness for C2 at a concrete state with a narrow-peak buffer present:
the call completes and returns exactly the input state. -/
theorem C2_blacklist_filter_does_not_mutate_witness :
    remove_blacklisted_peaks (fun b _ => b) st1 "bl" = .ok c2res ∧ c2res = st1 :=
  ⟨rfl, C2_blacklist_filter_does_not_mutate (fun b _ => b) st1 "bl" c2res rfl⟩

/-- C6: the comparison step requires the buffers treat_pileup_bdg and
control_lambda_bdg to be present; when they are, it completes and yields
the state with exactly one additional named buffer, ppois_bdg holding the
oracle output, every other buffer unchanged, and ppois.bdg appended to the
enabled output extensions; when either is missing, it raises the generic
AttributeError (not one of the two documented error kinds): the
precondition is unguarded. -/
theorem C6_bdgcmp_precondition_and_effect (st : ChIPSeqPeaks) (status : Int)
    (cmpOut : Bytes) :
    ((st.buffers "treat_pileup_bdg").isSome = true →
      (st.buffers "control_lambda_bdg").isSome = true →
      bdgcmp st status cmpOut = .ok { st with
        output_extensions := st.output_extensions ++ ["ppois.bdg"],
        buffers := fun k => if k = "ppois_bdg" then some cmpOut else st.buffers k }) ∧
    (∀ k, k ≠ "ppois_bdg" →
      (if k = "ppois_bdg" then some cmpOut else st.buffers k) = st.buffers k) ∧
    ((st.buffers "treat_pileup_bdg").isSome = false ∨
      (st.buffers "control_lambda_bdg").isSome = false →
      bdgcmp st status cmpOut = .error .attributeError) := by
  refine ⟨?_, ?_, ?_⟩
  · intro h1 h2
    rcases ht : st.buffers "treat_pileup_bdg" with _ | a
    · rw [ht] at h1; cases h1
    · rcases hc : st.buffers "control_lambda_bdg" with _ | b
      · rw [hc] at h2; cases h2
      · unfold bdgcmp
        rw [ht, hc]
  · intro k hk
    rw [if_neg hk]
  · intro h
    unfold bdgcmp
    rcases ht : st.buffers "treat_pileup_bdg" with _ | a
    · rfl
    · rcases hc : st.buffers "control_lambda_bdg" with _ | b
      · rfl
      · rcases h with h1 | h2
        · simp [ht] at h1
        · simp [hc] at h2

/-- Witness for C6 at a concrete state holding both prerequisite buffers:
the step completes and produces exactly the updated state. -/
theorem C6_bdgcmp_precondition_and_effect_witness :
    bdgcmp st1 0 [3] = .ok { st1 with
      output_extensions := st1.output_extensions ++ ["ppois.bdg"],
      buffers := fun k => if k = "ppois_bdg" then some [3] else st1.buffers k } :=
  (C6_bdgcmp_precondition_and_effect st1 0 [3]).1 (by decide) (by decide)

/-- C7: neither external invocation step inspects the exit status returned
by subprocess.call: for every state and every pair of exit statuses the
peak-calling step and the comparison step yield identical results, and
when its two prerequisite buffers are present the comparison step
completes for every exit status, downstream consuming whatever (possibly
empty or partial) output bytes the oracle produced.  (The peak-calling
step never reaches its invocation on the source as written, see C1/C3, so
its result is trivially independent of any exit status.) -/
theorem C7_exit_status_never_inspected (st : ChIPSeqPeaks) (s1 s2 : Int)
    (treatName ctrlName sampleName : String) (macsOut : String → Bytes)
    (cmpOut : Bytes) :
    call_peaks st treatName ctrlName sampleName s1 macsOut =
      call_peaks st treatName ctrlName sampleName s2 macsOut ∧
    bdgcmp st s1 cmpOut = bdgcmp st s2 cmpOut ∧
    ((st.buffers "treat_pileup_bdg").isSome = true →
      (st.buffers "control_lambda_bdg").isSome = true →
      exOk (bdgcmp st s1 cmpOut) = true) := by
  refine ⟨rfl, rfl, ?_⟩
  intro h1 h2
  rcases ht : st.buffers "treat_pileup_bdg" with _ | a
  · rw [ht] at h1; cases h1
  · rcases hc : st.buffers "control_lambda_bdg" with _ | b
    · rw [hc] at h2; cases h2
    · unfold bdgcmp exOk
      rw [ht, hc]

/-- Witness for C7 at a concrete state and two distinct exit statuses. -/
theorem C7_exit_status_never_inspected_witness :
    call_peaks st1 "t" "c" "s" 0 (fun _ => []) =
      call_peaks st1 "t" "c" "s" 7 (fun _ => []) ∧
    exOk (bdgcmp st1 0 [3]) = true :=
  ⟨(C7_exit_status_never_inspected st1 0 7 "t" "c" "s" (fun _ => []) [3]).1,
    (C7_exit_status_never_inspected st1 0 7 "t" "c" "s" (fun _ => []) [3]).2.2
      (by decide) (by decide)⟩

/-- C8: the loaded input byte buffers are immutable: every
post-construction operation that completes (peak calling, the comparison
step, blacklist filtering, write) returns a state whose treatment_bam and
control_bam fields equal those before, and the managed-context exit hook
(the cleanup) leaves the state untouched as well. -/
theorem C8_input_buffers_immutable (st : ChIPSeqPeaks)
    (filt : Bytes → String → Bytes) (path pfx : String) (exts : List String)
    (d : Disk) (status : Int) (macsOut : String → Bytes)
    (treatName ctrlName sampleName : String) (cmpOut : Bytes) :
    (∀ r, call_peaks st treatName ctrlName sampleName status macsOut = .ok r →
      r.treatment_bam = st.treatment_bam ∧ r.control_bam = st.control_bam) ∧
    (∀ r, bdgcmp st status cmpOut = .ok r →
      r.treatment_bam = st.treatment_bam ∧ r.control_bam = st.control_bam) ∧
    (∀ r, remove_blacklisted_peaks filt st path = .ok r →
      r.treatment_bam = st.treatment_bam ∧ r.control_bam = st.control_bam) ∧
    (∀ r d1, writeOp st pfx exts d = .ok (r, d1) →
      r.treatment_bam = st.treatment_bam ∧ r.control_bam = st.control_bam) ∧
    ((exitCtx st d).1.treatment_bam = st.treatment_bam ∧
      (exitCtx st d).1.control_bam = st.control_bam) := by
  refine ⟨?_, ?_, ?_, ?_, ?_⟩
  · intro r h
    rw [call_peaks_err] at h
    cases h
  · intro r h
    obtain rfl := bdgcmp_ok_eq st status cmpOut r h
    exact ⟨rfl, rfl⟩
  · intro r h
    obtain rfl := remove_blacklisted_ok_eq filt st path r h
    exact ⟨rfl, rfl⟩
  · intro r d1 h
    obtain rfl := writeOp_ok_state st pfx exts d r d1 h
    exact ⟨rfl, rfl⟩
  · rcases hcl : st.cleans_up <;> simp [exitCtx, hcl]

/-- Witness for C8, extracting the preserved fields through a completing
comparison step on a concrete state. -/
theorem C8_input_buffers_immutable_witness :
    c8res.treatment_bam = st1.treatment_bam ∧ c8res.control_bam = st1.control_bam :=
  (C8_input_buffers_immutable st1 (fun b _ => b) "bl" "p" [] (fun _ => none) 0
    (fun _ => []) "t" "c" "s" [3]).2.1 c8res rfl

/-- C9: an empty bytes object supplied as the control input is treated
exactly as if no control were supplied, because the source tests the
control argument for truthiness, not for being None: the whole embedded
constructor and its field-assembly stage coincide with the no-control
versions, and on any completing field assembly the stored control field is
None, control_lambda.bdg is not among the expected output extensions, and
the control segment of the MACS2 argument tuple is the empty tuple (so the
control flag would not be passed). -/
theorem C9_empty_bytes_control_like_no_control (fs : FileSys) (a : InitArgs)
    (t : PyInput) (treatName ctrlName sampleName : String) (status : Int)
    (macsOut : String → Bytes) :
    chipSeqPeaksInit fs a t (.pyBytes []) treatName ctrlName sampleName status macsOut =
      chipSeqPeaksInit fs a t .pyNone treatName ctrlName sampleName status macsOut ∧
    initState fs a t (.pyBytes []) = initState fs a t .pyNone ∧
    (∀ st, initState fs a t (.pyBytes []) = .ok st →
      st.control_bam = none ∧
      st.output_extensions.contains "control_lambda.bdg" = false ∧
      controlTuple st ctrlName = .tup []) := by
  refine ⟨rfl, rfl, ?_⟩
  intro st h
  unfold initState at h
  split at h
  · cases h
  · split at h
    · cases h
    · split at h
      · cases h
      · rename_i cb heq
        rw [show (if (PyInput.pyBytes []).truthy = true then
              (parse_input fs (PyInput.pyBytes [])).map some
            else (.ok none : Except PyErr (Option Bytes))) = .ok none from rfl] at heq
        obtain rfl : cb = none := (Except.ok.inj heq).symm
        obtain rfl := (Except.ok.inj h).symm
        refine ⟨rfl, ?_, rfl⟩
        rcases hb : a.broad <;> rfl

/-- Witness for C9 at a concrete one-byte treatment and empty-bytes
control: the assembled state stores no control, expects no control lambda
track, and contributes an empty control segment. -/
theorem C9_empty_bytes_control_like_no_control_witness :
    c9st.control_bam = none ∧
    c9st.output_extensions.contains "control_lambda.bdg" = false ∧
    controlTuple c9st "c" = .tup [] :=
  (C9_empty_bytes_control_like_no_control fs0 a1 (.pyBytes [5]) "t" "c" "s" 0
    (fun _ => [])).2.2 c9st rfl

/-- C10: with ATAC-seq mode enabled, a completing field assembly always
stores nomodel as true (the source forces it whenever the caller left it
false) and stores shift as minus one hundred whenever the supplied shift
is zero (the check is Python truthiness of the integer, so an explicitly
passed zero is overridden too); with ATAC-seq mode disabled, nomodel and
shift are stored unchanged. -/
theorem C10_atac_seq_defaults (fs : FileSys) (a : InitArgs) (t c : PyInput)
    (hm : a.macs2_path ≠ "") (ht : isStrOrBytes t = true)
    (hc : c.truthy = true → isStrOrBytes c = true) :
    ∃ st, initState fs a t c = .ok st ∧
      (a.atac_seq = true → st.nomodel = true ∧
        st.shift = if a.shift = 0 then -100 else a.shift) ∧
      (a.atac_seq = false → st.nomodel = a.nomodel ∧ st.shift = a.shift) := by
  have hparse : ∃ b, parse_input fs t = .ok b := by
    rcases t with _ | b | s | tb
    · cases ht
    · exact ⟨b, rfl⟩
    · exact ⟨fs s, rfl⟩
    · cases ht
  have hctrl : ∃ ob,
      (if c.truthy then (parse_input fs c).map some else .ok none) = .ok ob := by
    by_cases hct : c.truthy = true
    · rcases c with _ | b | s | tb
      · cases hct
      · exact ⟨some b, by rw [if_pos hct]; rfl⟩
      · exact ⟨some (fs s), by rw [if_pos hct]; rfl⟩
      · cases hc hct
    · exact ⟨none, by rw [if_neg hct]⟩
  obtain ⟨tb, hpt⟩ := hparse
  obtain ⟨ob, hpc⟩ := hctrl
  have hinit : initState fs a t c = .ok {
      treatment_bam := tb, macs2_path := a.macs2_path, control_bam := ob,
      qvalue := a.qvalue,
      nomodel := if a.atac_seq && !a.nomodel then true else a.nomodel,
      shift := if a.atac_seq && a.shift = 0 then -100 else a.shift,
      broad := a.broad, broad_cutoff := a.broad_cutoff, nolambda := a.nolambda,
      call_summits := a.call_summits, cleans_up := false, cleanup_pfx := none,
      output_extensions :=
        ["peaks.xls", "peaks.narrowPeak", "summits.bed", "treat_pileup.bdg"]
          ++ (if c.truthy then ["control_lambda.bdg"] else [])
          ++ (if a.broad then ["peaks.broadPeak", "peaks.gappedPeak"] else []),
      buffers := fun _ => none } := by
    unfold initState
    rw [if_neg hm, hpt, hpc]
  refine ⟨_, hinit, ?_, ?_⟩
  · intro ha
    constructor
    · show (if a.atac_seq && !a.nomodel then true else a.nomodel) = true
      rcases hn : a.nomodel <;> simp [ha, hn]
    · show (if a.atac_seq && a.shift = 0 then -100 else a.shift) =
        if a.shift = 0 then -100 else a.shift
      by_cases hs : a.shift = 0 <;> simp [ha, hs]
  · intro ha
    constructor
    · show (if a.atac_seq && !a.nomodel then true else a.nomodel) = a.nomodel
      simp [ha]
    · show (if a.atac_seq && a.shift = 0 then -100 else a.shift) = a.shift
      simp [ha]

/-- C4 counterexample: the claim states that the invalid-input-type error
is raised if and only if a supplied treatment or control input is neither
a str nor a bytes object.  Supplying a falsy non-str, non-bytes control
(modelling, for example, the integer zero) with a valid bytes treatment
and MACS2 present raises nothing at all, because the source only parses
the control when it is truthy: the right-to-left direction of the claimed
equivalence fails. -/
theorem C4_counterexample_falsy_invalid_control :
    isStrOrBytes (PyInput.pyOther false) = false ∧
    (PyInput.pyOther false).truthy = false ∧
    initState fs0 a1 (.pyBytes [7]) (.pyOther false) ≠ .error .badInputError ∧
    exOk (initState fs0 a1 (.pyBytes [7]) (.pyOther false)) = true := by
  refine ⟨rfl, rfl, ?_, rfl⟩
  intro h
  have hok : exOk (initState fs0 a1 (.pyBytes [7]) (.pyOther false)) = true := rfl
  rw [h] at hok
  exact Bool.noConfusion hok

/-- C4 amended: construction-time validation raises exactly the two
documented error kinds, classified as follows: the missing-tool error is
raised if and only if the MACS2 location is absent (this check precedes
input parsing, so it masks input errors), and the invalid-input error is
raised if and only if the location is present and either the treatment is
neither str nor bytes, or the treatment is str or bytes and the supplied
control is truthy and neither str nor bytes (a falsy control of any type
is skipped and raises nothing). -/
theorem C4_two_error_kinds_classified (fs : FileSys) (a : InitArgs)
    (t c : PyInput) :
    (initState fs a t c = .error .missingMACS2Error ↔ a.macs2_path = "") ∧
    (initState fs a t c = .error .badInputError ↔
      (a.macs2_path ≠ "" ∧ (isStrOrBytes t = false ∨
        (isStrOrBytes t = true ∧ c.truthy = true ∧ isStrOrBytes c = false)))) ∧
    (∀ e, initState fs a t c = .error e →
      e = .missingMACS2Error ∨ e = .badInputError) := by
  rcases initState_classify fs a t c with
    ⟨hm, h0⟩ | ⟨hm, hT, h0⟩ | ⟨hm, hT, hCt, hC, h0⟩ | ⟨hm, hT, hok, h0⟩
  · refine ⟨⟨fun _ => hm, fun _ => h0⟩, ⟨?_, ?_⟩, ?_⟩
    · intro h; rw [h0] at h; simp at h
    · rintro ⟨hm', _⟩; exact absurd hm hm'
    · intro e he; rw [h0] at he; exact .inl (Except.error.inj he).symm
  · refine ⟨⟨?_, fun hm'' => absurd hm'' hm⟩,
      ⟨fun _ => ⟨hm, .inl hT⟩, fun _ => h0⟩, ?_⟩
    · intro h; rw [h0] at h; simp at h
    · intro e he; rw [h0] at he; exact .inr (Except.error.inj he).symm
  · refine ⟨⟨?_, fun hm'' => absurd hm'' hm⟩,
      ⟨fun _ => ⟨hm, .inr ⟨hT, hCt, hC⟩⟩, fun _ => h0⟩, ?_⟩
    · intro h; rw [h0] at h; simp at h
    · intro e he; rw [h0] at he; exact .inr (Except.error.inj he).symm
  · have hne := exOk_ne_error h0
    refine ⟨⟨fun h => absurd h (hne _), fun hm'' => absurd hm'' hm⟩,
      ⟨fun h => absurd h (hne _), ?_⟩, fun e he => absurd he (hne _)⟩
    rintro ⟨_, hbad | ⟨_, hct', hc'⟩⟩
    · rw [hT] at hbad; exact Bool.noConfusion hbad
    · rcases hok with hf | hv
      · rw [hf] at hct'; exact Bool.noConfusion hct'
      · rw [hv] at hc'; exact Bool.noConfusion hc'

/-- Witness for the amended C4: with the MACS2 location absent, the
missing-tool error is raised. -/
theorem C4_two_error_kinds_classified_witness :
    initState fs0 aNoMacs (.pyBytes [0]) .pyNone = .error .missingMACS2Error :=
  (C4_two_error_kinds_classified fs0 aNoMacs (.pyBytes [0]) .pyNone).1.mpr rfl

/-- C5 counterexample: the claim states that a managed-context exit after
write removes exactly the files write wrote.  Starting from a disk that
already holds a file at the path of the summit-list output of the prefix
p, calling write with the explicit selection of only the summary-table
extension succeeds and leaves the preexisting file untouched, yet the
subsequent exit removes it as well, because the exit hook cleans the path
of every enabled output extension, not only the written ones: exit
removed a file write did not write. -/
theorem C5_counterexample_exit_removes_unwritten_file :
    exOk (writeOp st1 "p" ["peaks.xls"] c5d0) = true ∧
    isfile c5d0 "p_summits.bed" = true ∧
    c5d1 "p_summits.bed" = some [9] ∧
    c5d1 "p_summits.bed" = c5d0 "p_summits.bed" ∧
    isfile c5step.2 "p_summits.bed" = false :=
  ⟨rfl, rfl, rfl, rfl, rfl⟩

/-- C5 amended: for every prefix, write with the default selection (all
enabled output types) persists each buffer to its output path, records the
prefix, and leaves every other path unchanged; the subsequent
managed-context exit then removes exactly the files write wrote (every
output path is gone and every other path is as it was before the write),
and removing the same path twice equals removing it once, a no-op that
never errors.  With an explicit subset selection, exit still cleans the
paths of all enabled extensions and may therefore remove preexisting
files write did not write (see the counterexample). -/
theorem C5_write_then_exit_cleanup (st : ChIPSeqPeaks) (pfx : String)
    (d : Disk)
    (hb : ∀ ext ∈ st.output_extensions, (st.buffers (attrName ext)).isSome = true) :
    (∀ d' p, clean_up (clean_up d' p) p = clean_up d' p) ∧
    ∃ s1 d1, writeOp st pfx [] d = .ok (s1, d1) ∧
      s1.cleanup_pfx = some pfx ∧
      (∀ ext ∈ st.output_extensions,
        d1 (pfx ++ "_" ++ ext) = st.buffers (attrName ext)) ∧
      (∀ q, (∀ ext ∈ st.output_extensions, q ≠ pfx ++ "_" ++ ext) → d1 q = d q) ∧
      (∀ ext ∈ st.output_extensions,
        (exitCtx (enterCtx s1) d1).2 (pfx ++ "_" ++ ext) = none) ∧
      (∀ q, (∀ ext ∈ st.output_extensions, q ≠ pfx ++ "_" ++ ext) →
        (exitCtx (enterCtx s1) d1).2 q = d q) := by
  refine ⟨fun d' p => clean_up_idem d' p, ?_⟩
  obtain ⟨d1, hok, hvals, hother⟩ :=
    writeFiles_ok st.buffers pfx st.output_extensions d hb
  refine ⟨{ st with cleanup_pfx := some pfx }, d1, ?_, rfl, hvals, hother, ?_, ?_⟩
  · have h2 : writeOp st pfx [] d =
        (writeFiles st.buffers pfx st.output_extensions d).map
          (fun dd => ({ st with cleanup_pfx := some pfx }, dd)) := rfl
    rw [h2, hok]
    rfl
  · intro ext hmem
    exact cleanFold_target (fun e => pfx ++ "_" ++ e) st.output_extensions ext
      (path_ne_empty pfx ext) hmem d1
  · intro q hq
    exact (cleanFold_other (fun e => pfx ++ "_" ++ e) st.output_extensions q d1
      hq).trans (hother q hq)

/-- Witness for the amended C5 at a concrete state with all four default
buffers present, writing under the prefix p onto an empty disk. -/
theorem C5_write_then_exit_cleanup_witness :
    (∀ d' p, clean_up (clean_up d' p) p = clean_up d' p) ∧
    ∃ s1 d1, writeOp st1 "p" [] (fun _ => none) = .ok (s1, d1) ∧
      s1.cleanup_pfx = some "p" ∧
      (∀ ext ∈ st1.output_extensions,
        d1 ("p" ++ "_" ++ ext) = st1.buffers (attrName ext)) ∧
      (∀ q, (∀ ext ∈ st1.output_extensions, q ≠ "p" ++ "_" ++ ext) →
        d1 q = (fun _ => (none : Option Bytes)) q) ∧
      (∀ ext ∈ st1.output_extensions,
        (exitCtx (enterCtx s1) d1).2 ("p" ++ "_" ++ ext) = none) ∧
      (∀ q, (∀ ext ∈ st1.output_extensions, q ≠ "p" ++ "_" ++ ext) →
        (exitCtx (enterCtx s1) d1).2 q = (fun _ => (none : Option Bytes)) q) :=
  C5_write_then_exit_cleanup st1 "p" (fun _ => none) (by decide)

/-- Witness for C10 at the default ATAC-seq configuration with an
explicitly zero shift and a one-byte treatment. -/
theorem C10_atac_seq_defaults_witness :
    ∃ st, initState fs0 aAtac (.pyBytes [0]) .pyNone = .ok st ∧
      (aAtac.atac_seq = true → st.nomodel = true ∧
        st.shift = if aAtac.shift = 0 then -100 else aAtac.shift) ∧
      (aAtac.atac_seq = false → st.nomodel = aAtac.nomodel ∧
        st.shift = aAtac.shift) :=
  C10_atac_seq_defaults fs0 aAtac (.pyBytes [0]) .pyNone (by decide) (by decide)
    (by decide)

end CSP
